import Mathlib

/-!
# Artifyy AI — verification of the session / history / cropper / comparator logic

Shallow embedding of the client-side state logic of the Artifyy AI photo
editor (`src/App.tsx`, `src/components/ResultDisplay.tsx`,
`src/components/ImageComparator.tsx`, the `ImageCropper` and `AgentTab`
components, and the `geminiService` module), together with proofs about it.

Remote calls are modelled by their outcome (success with a returned image,
or failure), since the service itself is an external boundary; everything
that the local code does with those outcomes is translated directly from
the source.
-/

namespace Artifyy

/-- `ImageFile` from `src/types.ts`: base64-encoded bytes, a media-type tag,
and a display URL. -/
structure ImageFile where
  base64 : String
  mimeType : String
  url : String
deriving DecidableEq, Repr

/-- `AppState` from `src/types.ts`. -/
inductive AppState where
  | idle
  | preview
  | cropping
  | analyzing
  | awaitingConfirmation
  | enhancing
  | done
  | error
deriving DecidableEq, Repr

/-- The component state of `App` in `src/App.tsx` (the `useState` fields). -/
structure Session where
  appState : AppState
  error : Option String
  originalImage : Option ImageFile
  imageToProcess : Option ImageFile
  originalFilename : String
  imageHistory : List ImageFile
  currentImageIndex : Int
  analysis : String
  suggestions : List String
  enhancementSummary : String
deriving DecidableEq, Repr

/-- JavaScript `array.slice(0, e)`: a negative end counts from the end of the
array, and both directions clamp to the array bounds. -/
def jsSlice0 {α : Type} (l : List α) (e : Int) : List α :=
  if e < 0 then l.take ((l.length : Int) + e).toNat else l.take e.toNat

/-- The initial `useState` values of `App` (also what `resetState` restores). -/
def initialSession : Session :=
  { appState := .idle
    error := none
    originalImage := none
    imageToProcess := none
    originalFilename := ""
    imageHistory := []
    currentImageIndex := -1
    analysis := ""
    suggestions := []
    enhancementSummary := "" }

/-- `resetState` in `src/App.tsx`: sets every field back to its default. -/
def resetState (_s : Session) : Session := initialSession

/-- The derived value `enhancedImage = imageHistory[currentImageIndex] ?? null`
in `src/App.tsx` (an out-of-range or negative index reads as `null`). -/
def enhancedImage (s : Session) : Option ImageFile :=
  if s.currentImageIndex < 0 then none
  else s.imageHistory.get? s.currentImageIndex.toNat

/-- `handleImageUpdate` in `src/App.tsx`:
`newHistory = imageHistory.slice(0, currentImageIndex + 1)`, push the new
image, and point the cursor at the new last index. -/
def handleImageUpdate (s : Session) (newImage : ImageFile) : Session :=
  let newHistory := jsSlice0 s.imageHistory (s.currentImageIndex + 1) ++ [newImage]
  { s with imageHistory := newHistory
           currentImageIndex := (newHistory.length : Int) - 1 }

/-- `handleUndo` in `src/App.tsx`: decrement the cursor only when it is
strictly positive. -/
def handleUndo (s : Session) : Session :=
  if s.currentImageIndex > 0 then
    { s with currentImageIndex := s.currentImageIndex - 1 }
  else s

/-- `canUndo` in `src/App.tsx`. -/
def canUndo (s : Session) : Bool := s.currentImageIndex > 0

/-- The summary string built in `handleEnhance` from the selected
suggestions. -/
def summaryText (selected : List String) : String :=
  "Here are the enhancements I have made:\n\n* " ++ String.intercalate "\n* " selected

/-- Outcome of the remote `enhanceImage` call (external boundary): either a
returned `ImageFile` or a thrown error message. -/
inductive EnhanceOutcome where
  | ok (img : ImageFile)
  | err (msg : String)
deriving DecidableEq, Repr

/-- `handleEnhance` in `src/App.tsx`, with the remote call modelled by its
outcome.  Guarded only on `imageToProcess` being present; on success the
history is seeded with `[imageToProcess, enhancedImageResult]` and the
cursor set to 1. -/
def handleEnhance (s : Session) (selectedSuggestions : List String)
    (outcome : EnhanceOutcome) : Session :=
  match s.imageToProcess with
  | none => s
  | some pre =>
    let s1 := { s with appState := .enhancing, error := none }
    match outcome with
    | .ok r =>
        { s1 with imageHistory := [pre, r]
                  currentImageIndex := 1
                  enhancementSummary := summaryText selectedSuggestions
                  appState := .done }
    | .err m => { s1 with error := some m, appState := .error }

/-- The synchronous prefix of `handleEnhance` (everything before the remote
call is awaited): if a working image is present the state is set to
`ENHANCING` and the error cleared; otherwise the handler returns at once. -/
def handleEnhanceStart (s : Session) : Session :=
  match s.imageToProcess with
  | none => s
  | some _ => { s with appState := .enhancing, error := none }

/-- The history invariant from the spec: the cursor is a valid index into the
sequence, or `-1` exactly when the sequence is empty. -/
def histInvariant (s : Session) : Prop :=
  (s.imageHistory = [] ∧ s.currentImageIndex = -1) ∨
  (s.imageHistory ≠ [] ∧ 0 ≤ s.currentImageIndex ∧
    s.currentImageIndex < s.imageHistory.length)

instance (s : Session) : Decidable (histInvariant s) := by
  unfold histInvariant
  infer_instance

/-! ## Download (`src/components/ResultDisplay.tsx`, `handleDownload`) -/

/-- The state of the result panel in `src/components/ResultDisplay.tsx` that
the blur handler touches. -/
structure ResultPanelState where
  backgroundBlurLevel : Int
  isApplyingBlur : Bool
  creativeError : Option String
deriving DecidableEq, Repr

/-- Split a character list at every occurrence of the separator (the
character-level semantics of the JavaScript `string.split(sep)` for a
one-character separator). -/
def splitCharsOn (sep : Char) : List Char → List Char → List (List Char)
  | [], acc => [acc.reverse]
  | c :: cs, acc =>
      if c = sep then acc.reverse :: splitCharsOn sep cs []
      else splitCharsOn sep cs (c :: acc)

/-- JavaScript `string.split(sep)` for a one-character separator. -/
def jsSplit (s : String) (sep : Char) : List String :=
  (splitCharsOn sep s.data []).map fun l => ⟨l⟩

/-- `handleDownload` in `src/components/ResultDisplay.tsx`: the anchor's
`download` attribute (the file name) and its `href` (what gets saved).
`extension = downloadFormat.split('/')[1]`; the href is the current image's
existing URL, taken as is. -/
def handleDownload (enhancedImg : ImageFile) (downloadFormat : String)
    (defaultFilename : String) : String × String :=
  let extension := (jsSplit downloadFormat '/').getD 1 ""
  (defaultFilename ++ "-enhanced." ++ extension, enhancedImg.url)

/-- The data URL an `ImageFile` carries everywhere in this code base
(`fileToImageFile` and every service result build the URL this way). -/
def dataUrl (mimeType base64 : String) : String :=
  "data:" ++ mimeType ++ ";base64," ++ base64

/-- The media type encoded in a data URL: the segment between `data:` and the
first `;`. -/
def mimeOfDataUrl (u : String) : String :=
  (jsSplit (⟨u.data.drop 5⟩ : String) ';').getD 0 ""

/-! ## AI background blur (`geminiService.applyBackgroundBlur`) -/

/-- `getBlurLevelPrompt` in the gemini service module. -/
def getBlurLevelPrompt (level : Int) : String :=
  if level ≤ 10 then "very subtle, barely noticeable"
  else if level ≤ 30 then "subtle and natural"
  else if level ≤ 60 then "moderate, similar to a portrait lens"
  else if level ≤ 85 then "strong and prominent, making the subject stand out significantly"
  else "maximum, creating a very dreamy and artistic effect"

/-- What `applyBackgroundBlur` does before any network traffic: either it
returns an image with no request at all, or it issues one remote request
with the given prompt text. -/
inductive BlurCall where
  | noRequest (result : ImageFile)
  | request (prompt : String)
deriving DecidableEq, Repr

/-- The prompt `applyBackgroundBlur` sends for a non-zero level. -/
def blurPrompt (blurLevel : Int) : String :=
  "Apply a realistic background blur (bokeh effect) to this image.\n" ++
  "- The main subject(s) must remain perfectly sharp and in focus.\n" ++
  "- The background should be blurred.\n" ++
  "- The intensity of the background blur should be " ++
    getBlurLevelPrompt blurLevel ++ " (" ++ toString blurLevel ++ "/100).\n" ++
  "- Do not change colors, lighting, or any other aspect of the photo.\n" ++
  "- Return ONLY the edited image."

/-- `applyBackgroundBlur` in the gemini service module, up to the remote
boundary: `if (blurLevel === 0) return image;` and otherwise a single
remote request is issued. -/
def applyBackgroundBlur (image : ImageFile) (blurLevel : Int) : BlurCall :=
  if blurLevel = 0 then .noRequest image
  else .request (blurPrompt blurLevel)

/-- The synchronous prefix of `handleApplyBackgroundBlur` in
`src/components/ResultDisplay.tsx`: the handler returns at once (no state
change, flag `false`) when the slider is at 0, and otherwise raises the
busy flag, clears the panel error and proceeds to the remote call
(flag `true`). -/
def handleApplyBackgroundBlurStart (p : ResultPanelState) :
    ResultPanelState × Bool :=
  if p.backgroundBlurLevel = 0 then (p, false)
  else ({ p with isApplyingBlur := true, creativeError := none }, true)

/-! ## Interactive cropper (`ImageCropper`, with the `react-image-crop`
helpers it calls) -/

/-- The unit of a `react-image-crop` crop rectangle: display pixels or
percent of the displayed image. -/
inductive CropUnit where
  | px
  | pct
deriving DecidableEq, Repr

/-- A `react-image-crop` `Crop` value. -/
structure Crop where
  unit : CropUnit
  x : ℚ
  y : ℚ
  width : ℚ
  height : ℚ
deriving DecidableEq, Repr

/-- `react-image-crop`'s `convertToPixelCrop`: a percent crop is scaled by
the container (displayed) size over 100. -/
def convertToPixelCrop (c : Crop) (containerWidth containerHeight : ℚ) : Crop :=
  match c.unit with
  | .px => c
  | .pct =>
      ⟨.px, c.x * containerWidth / 100, c.y * containerHeight / 100,
        c.width * containerWidth / 100, c.height * containerHeight / 100⟩

/-- `react-image-crop`'s `convertToPercentCrop`. -/
def convertToPercentCrop (c : Crop) (containerWidth containerHeight : ℚ) : Crop :=
  match c.unit with
  | .pct => c
  | .px =>
      ⟨.pct, c.x / containerWidth * 100, c.y / containerHeight * 100,
        c.width / containerWidth * 100, c.height / containerHeight * 100⟩

/-- `react-image-crop`'s `makeAspectCrop`: complete a partial crop to the
given aspect in pixel space, clamp it into the container, and report it in
the unit the input used.  (`hasWidth`/`hasHeight` reflect which fields the
partial input crop actually supplied.) -/
def makeAspectCrop (crop : Crop) (hasWidth hasHeight : Bool)
    (aspect containerWidth containerHeight : ℚ) : Crop :=
  let p := convertToPixelCrop crop containerWidth containerHeight
  let p := if hasWidth then { p with height := p.width / aspect } else p
  let p := if hasHeight then { p with width := p.height * aspect } else p
  let p :=
    if p.y + p.height > containerHeight then
      let h := containerHeight - p.y
      { p with height := h, width := h * aspect }
    else p
  let p :=
    if p.x + p.width > containerWidth then
      let w := containerWidth - p.x
      { p with width := w, height := w / aspect }
    else p
  if crop.unit = .pct then convertToPercentCrop p containerWidth containerHeight else p

/-- `react-image-crop`'s `centerCrop`: recenter the crop in the container. -/
def centerCrop (crop : Crop) (containerWidth containerHeight : ℚ) : Crop :=
  let p := convertToPixelCrop crop containerWidth containerHeight
  let p := { p with x := (containerWidth - p.width) / 2
                    y := (containerHeight - p.height) / 2 }
  if crop.unit = .pct then convertToPercentCrop p containerWidth containerHeight else p

/-- `onImageLoad` in the `ImageCropper` component: the initial selection is
`centerCrop(makeAspectCrop({ unit: '%', width: 90 }, 1, width, height),
width, height)` where `width`/`height` are the displayed size. -/
def onImageLoad (displayWidth displayHeight : ℚ) : Crop :=
  centerCrop
    (makeAspectCrop ⟨.pct, 0, 0, 90, 0⟩ true false 1 displayWidth displayHeight)
    displayWidth displayHeight

/-- The region `handleConfirmCrop` draws onto the canvas, in natural (source)
pixels, plus the media type the result carries. -/
structure CroppedResult where
  x : ℚ
  y : ℚ
  width : ℚ
  height : ℚ
  mimeType : String
deriving DecidableEq, Repr

/-- `handleConfirmCrop` in the `ImageCropper` component: every field of the
current crop is multiplied by `natural / displayed` scale factors
(`scaleX`, `scaleY`), whatever unit the crop is in, and the canvas is
encoded with the source image's media type. -/
def handleConfirmCrop (naturalWidth naturalHeight displayWidth displayHeight : ℚ)
    (crop : Crop) (mimeType : String) : CroppedResult :=
  let scaleX := naturalWidth / displayWidth
  let scaleY := naturalHeight / displayHeight
  ⟨crop.x * scaleX, crop.y * scaleY, crop.width * scaleX, crop.height * scaleY,
    mimeType⟩

/-- Spec-side reading of a selection's on-screen width in display pixels: a
pixel crop is already in display pixels; a percent crop covers that
fraction of the displayed width. -/
def selectionDisplayWidth (c : Crop) (displayWidth : ℚ) : ℚ :=
  match c.unit with
  | .px => c.width
  | .pct => c.width * displayWidth / 100

/-- Spec-side reading of a selection's on-screen height in display pixels. -/
def selectionDisplayHeight (c : Crop) (displayHeight : ℚ) : ℚ :=
  match c.unit with
  | .px => c.height
  | .pct => c.height * displayHeight / 100

/-! ## Before/after comparator (`src/components/ImageComparator.tsx`) -/

/-- The comparator's component state.  The source stores `transformOrigin`
as a CSS string built from the two percentages; it is modelled here as the
pair of percentages. -/
structure ComparatorState where
  sliderPosition : ℚ
  isDragging : Bool
  isZoomed : Bool
  transformOrigin : ℚ × ℚ
deriving DecidableEq, Repr

/-- The initial comparator state (`useState(50)`, `false`, `false`,
`'center center'`). -/
def initComparator : ComparatorState :=
  { sliderPosition := 50, isDragging := false, isZoomed := false
    transformOrigin := (50, 50) }

/-- The pointer/touch events the comparator handles. -/
inductive CompEvent where
  | mouseMove (clientX clientY : ℚ)
  | mouseDown
  | touchStart
  | mouseUp
  | touchMove (clientX : ℚ)
  | touchEnd
  | mouseEnter
  | mouseLeave
deriving DecidableEq, Repr

/-- `handleSliderMove`: clamp the pointer x into the container and store it
as a percentage. -/
def handleSliderMove (rectLeft rectWidth : ℚ) (s : ComparatorState)
    (clientX : ℚ) : ComparatorState :=
  let x := max 0 (min (clientX - rectLeft) rectWidth)
  { s with sliderPosition := x / rectWidth * 100 }

/-- One step of the comparator: the event handlers of
`src/components/ImageComparator.tsx`, over a container rectangle.
`mouseDown` sets dragging and clears the zoom; `touchStart` only sets
dragging; `mouseEnter` zooms only when not dragging. -/
def compStep (rectLeft rectTop rectWidth rectHeight : ℚ)
    (s : ComparatorState) : CompEvent → ComparatorState
  | .mouseMove clientX clientY =>
      if s.isDragging then handleSliderMove rectLeft rectWidth s clientX
      else
        { s with transformOrigin :=
            ((clientX - rectLeft) / rectWidth * 100,
             (clientY - rectTop) / rectHeight * 100) }
  | .mouseDown => { s with isDragging := true, isZoomed := false }
  | .touchStart => { s with isDragging := true }
  | .mouseUp => if s.isDragging then { s with isDragging := false } else s
  | .touchMove clientX =>
      if s.isDragging then handleSliderMove rectLeft rectWidth s clientX else s
  | .touchEnd => if s.isDragging then { s with isDragging := false } else s
  | .mouseEnter => if ¬s.isDragging then { s with isZoomed := true } else s
  | .mouseLeave => { s with isZoomed := false }

/-- Run the comparator over a sequence of events. -/
def compRun (rectLeft rectTop rectWidth rectHeight : ℚ)
    (s : ComparatorState) (evs : List CompEvent) : ComparatorState :=
  evs.foldl (compStep rectLeft rectTop rectWidth rectHeight) s

/-! ## Chat stream (`AgentTab.handleSubmit`) -/

/-- A chat message role. -/
inductive Role where
  | user
  | model
deriving DecidableEq, Repr

/-- A chat message, as kept in the `messages` state of `AgentTab`. -/
structure ChatMessage where
  role : Role
  text : String
deriving DecidableEq, Repr

/-- The first state update in `handleSubmit`: append the user's message and
an empty placeholder for the model's reply. -/
def pushUserAndPlaceholder (msgs : List ChatMessage) (userMessage : String) :
    List ChatMessage :=
  msgs ++ [⟨.user, userMessage⟩, ⟨.model, ""⟩]

/-- The per-chunk state update in `handleSubmit`'s stream loop:
`newMessages[newMessages.length - 1].text += chunkText`. -/
def appendChunk (msgs : List ChatMessage) (chunkText : String) :
    List ChatMessage :=
  match msgs.getLast? with
  | none => msgs
  | some last => msgs.dropLast ++ [⟨last.role, last.text ++ chunkText⟩]

/-- The `catch` branch of `handleSubmit`: `prev.slice(0, -1)` drops the
in-progress model message. -/
def discardInProgress (msgs : List ChatMessage) : List ChatMessage :=
  msgs.dropLast

/-- The message list after `handleSubmit` has pushed the user message and the
placeholder and then processed the given chunks in arrival order. -/
def runStream (msgs : List ChatMessage) (userMessage : String)
    (chunks : List String) : List ChatMessage :=
  chunks.foldl appendChunk (pushUserAndPlaceholder msgs userMessage)

/-! ## Concrete values used by witnesses and counterexamples -/

/-- A concrete image `A`. -/
def imgA : ImageFile := ⟨"aaaa", "image/png", dataUrl "image/png" "aaaa"⟩

/-- A concrete image `B`. -/
def imgB : ImageFile := ⟨"bbbb", "image/png", dataUrl "image/png" "bbbb"⟩

/-- A concrete image `C`. -/
def imgC : ImageFile := ⟨"cccc", "image/png", dataUrl "image/png" "cccc"⟩

/-- A concrete image `D`. -/
def imgD : ImageFile := ⟨"dddd", "image/png", dataUrl "image/png" "dddd"⟩

/-- The state reached from an empty history by
`append(A); append(B); append(C); undo()` — the state just before the final
`append(D)` of the spec's worked example. -/
def exampleBeforeD : Session :=
  handleUndo
    (handleImageUpdate (handleImageUpdate (handleImageUpdate initialSession imgA) imgB) imgC)

/-- A concrete `Done` session with a two-entry history. -/
def doneSession : Session :=
  { initialSession with
      appState := .done
      originalImage := some imgA
      imageToProcess := some imgA
      imageHistory := [imgA, imgB]
      currentImageIndex := 1 }

/-- A concrete session with a single-entry history. -/
def singleEntrySession : Session :=
  { initialSession with
      appState := .done
      imageHistory := [imgA]
      currentImageIndex := 0 }

/-- A concrete `Analyzing` session (as `handleStartAnalysis` produces: the
working image is set before the state switches to `ANALYZING`). -/
def analyzingSession : Session :=
  { initialSession with
      appState := .analyzing
      originalImage := some imgA
      imageToProcess := some imgA }

/-- A concrete `AwaitingConfirmation` session. -/
def awaitingSession : Session :=
  { initialSession with
      appState := .awaitingConfirmation
      originalImage := some imgA
      imageToProcess := some imgA
      analysis := "Blurry."
      suggestions := ["Brighten face"] }

/-! ## Claims -/

/-- **C1.** For every history state with `-1 ≤ cursor < |history|` and every
image `x`, `handleImageUpdate x` yields the first `cursor + 1` entries of
the history followed by `x`, with the cursor at the new last index (which
is the old cursor plus one). -/
theorem c1_append_truncates_then_appends (s : Session) (x : ImageFile)
    (h1 : -1 ≤ s.currentImageIndex)
    (h2 : s.currentImageIndex < s.imageHistory.length) :
    (handleImageUpdate s x).imageHistory =
      s.imageHistory.take (s.currentImageIndex + 1).toNat ++ [x] ∧
    (handleImageUpdate s x).currentImageIndex =
      ((handleImageUpdate s x).imageHistory.length : Int) - 1 ∧
    (handleImageUpdate s x).currentImageIndex = s.currentImageIndex + 1 := by
  have hnn : ¬ (s.currentImageIndex + 1 < 0) := by omega
  refine ⟨?_, ?_, ?_⟩
  · simp [handleImageUpdate, jsSlice0, hnn]
  · simp [handleImageUpdate]
  · have hlen : (s.imageHistory.take (s.currentImageIndex + 1).toNat).length =
        (s.currentImageIndex + 1).toNat := by
      rw [List.length_take]
      omega
    simp [handleImageUpdate, jsSlice0, hnn, hlen]
    omega

/-- Witness for C1, at the spec's worked example: from the state reached by
`append(A); append(B); append(C); undo()` on an empty history, appending
`D` yields the sequence `[A, B, D]` with the cursor on `D`. -/
theorem c1_append_truncates_then_appends_witness :
    (-1 ≤ exampleBeforeD.currentImageIndex ∧
      exampleBeforeD.currentImageIndex < exampleBeforeD.imageHistory.length) ∧
    (handleImageUpdate exampleBeforeD imgD).imageHistory =
      exampleBeforeD.imageHistory.take (exampleBeforeD.currentImageIndex + 1).toNat
        ++ [imgD] ∧
    (handleImageUpdate exampleBeforeD imgD).imageHistory = [imgA, imgB, imgD] ∧
    (handleImageUpdate exampleBeforeD imgD).currentImageIndex = 2 ∧
    enhancedImage (handleImageUpdate exampleBeforeD imgD) = some imgD :=
  ⟨⟨by decide, by decide⟩,
    (c1_append_truncates_then_appends exampleBeforeD imgD (by decide) (by decide)).1,
    by decide, by decide, by decide⟩

/-- **C2.** `handleUndo` is a no-op when the cursor is at most 0 (hence on an
empty or single-entry history satisfying the history invariant, `current()`
is unchanged), and otherwise it decrements the cursor by one, leaves the
sequence itself untouched, and `current()` becomes the entry at the
decremented cursor. -/
theorem c2_undo_decrements_or_noop (s : Session) :
    (s.currentImageIndex ≤ 0 → handleUndo s = s) ∧
    (0 < s.currentImageIndex →
      (handleUndo s).imageHistory = s.imageHistory ∧
      (handleUndo s).currentImageIndex = s.currentImageIndex - 1 ∧
      enhancedImage (handleUndo s) =
        s.imageHistory.get? (s.currentImageIndex - 1).toNat) ∧
    (histInvariant s → s.imageHistory.length ≤ 1 →
      enhancedImage (handleUndo s) = enhancedImage s) := by
  refine ⟨?_, ?_, ?_⟩
  · intro h
    simp [handleUndo]
    omega
  · intro h
    refine ⟨by simp [handleUndo, h], by simp [handleUndo, h], ?_⟩
    have hnn : ¬ (s.currentImageIndex - 1 < 0) := by omega
    simp [handleUndo, h, enhancedImage, hnn]
  · intro hinv hlen
    have hle : s.currentImageIndex ≤ 0 := by
      rcases hinv with ⟨_, hc⟩ | ⟨_, _, hc⟩ <;> omega
    have : handleUndo s = s := by
      simp [handleUndo]
      omega
    rw [this]

/-- Witness for C2, at a concrete three-entry history with the cursor at 2:
undo keeps the list, moves the cursor to 1, and `current()` becomes the
entry at index 1; and at the single-entry `histInvariant` state seeded with
one image, undo changes nothing. -/
theorem c2_undo_decrements_or_noop_witness :
    (0 < doneSession.currentImageIndex ∧
      (handleUndo doneSession).imageHistory = doneSession.imageHistory ∧
      (handleUndo doneSession).currentImageIndex = 0 ∧
      enhancedImage (handleUndo doneSession) = some imgA) ∧
    (histInvariant singleEntrySession ∧ singleEntrySession.imageHistory.length ≤ 1 ∧
      enhancedImage (handleUndo singleEntrySession) = enhancedImage singleEntrySession) := by
  have h := (c2_undo_decrements_or_noop doneSession).2.1 (by decide)
  have h2 := (c2_undo_decrements_or_noop singleEntrySession).2.2
    (by decide) (by decide)
  exact ⟨⟨by decide, h.1, by decide, by decide⟩, ⟨by decide, by decide, h2⟩⟩

/-- **C3.** Whenever `handleEnhance` runs with a working image present and
the remote call succeeds with result `r`, the session reaches `DONE` with
the history exactly `[pre-image, r]`, the cursor at index 1, and `r` itself
(unmodified) as the current image. -/
theorem c3_enhance_success_seeds_history (s : Session) (pre r : ImageFile)
    (sel : List String) (h : s.imageToProcess = some pre) :
    (handleEnhance s sel (.ok r)).appState = .done ∧
    (handleEnhance s sel (.ok r)).imageHistory = [pre, r] ∧
    (handleEnhance s sel (.ok r)).currentImageIndex = 1 ∧
    enhancedImage (handleEnhance s sel (.ok r)) = some r := by
  simp [handleEnhance, h, enhancedImage]

/-- Witness for C3: from a concrete `AwaitingConfirmation` session with the
spec's settings, a successful remote result `B` yields history `[A, B]`
with the cursor on `B`. -/
theorem c3_enhance_success_seeds_history_witness :
    awaitingSession.imageToProcess = some imgA ∧
    (handleEnhance awaitingSession ["Brighten face"] (.ok imgB)).appState = .done ∧
    (handleEnhance awaitingSession ["Brighten face"] (.ok imgB)).imageHistory
      = [imgA, imgB] ∧
    (handleEnhance awaitingSession ["Brighten face"] (.ok imgB)).currentImageIndex
      = 1 ∧
    enhancedImage (handleEnhance awaitingSession ["Brighten face"] (.ok imgB))
      = some imgB := by
  have h := c3_enhance_success_seeds_history awaitingSession imgA imgB
    ["Brighten face"] (by decide)
  exact ⟨by decide, h.1, h.2.1, h.2.2.1, h.2.2.2⟩

/-- **C4 (counterexample).** The claim that no operation other than the
truncation step inside append removes entries from the sequence is false:
the full reset, one of the operations the claim itself lists, empties a
two-entry history (and the re-seed on a second enhance success likewise
replaces a longer history with the two-element seed). -/
theorem c4_counterexample_reset_removes_entries :
    histInvariant doneSession ∧
    doneSession.imageHistory.length = 2 ∧
    (resetState doneSession).imageHistory = [] ∧
    (resetState doneSession).imageHistory.length < doneSession.imageHistory.length ∧
    (handleEnhance (handleImageUpdate doneSession imgC) [] (.ok imgD)).imageHistory.length
      < (handleImageUpdate doneSession imgC).imageHistory.length := by
  decide

/-- **C4 (amended).** Every operation that touches the history — seeding on
enhance success or failure, append, undo, full reset — preserves the
invariant that the cursor is a valid index into the sequence, or `-1`
exactly when the sequence is empty; undo never removes entries; but
besides the truncation inside append, the full reset clears the sequence
entirely (and a later enhance success replaces it with the two-element
seed). -/
theorem c4_history_ops_preserve_invariant (s : Session) (x r : ImageFile)
    (sel : List String) (m : String) (hinv : histInvariant s) :
    histInvariant (resetState s) ∧
    histInvariant (handleUndo s) ∧
    histInvariant (handleImageUpdate s x) ∧
    histInvariant (handleEnhance s sel (.ok r)) ∧
    histInvariant (handleEnhance s sel (.err m)) ∧
    (handleUndo s).imageHistory = s.imageHistory ∧
    (resetState s).imageHistory = [] := by
  refine ⟨by unfold resetState; decide, ?_, ?_, ?_, ?_, ?_, rfl⟩
  · unfold handleUndo
    rcases hinv with ⟨h1, h2⟩ | ⟨h1, h2, h3⟩
    · have hc : ¬ s.currentImageIndex > 0 := by omega
      rw [if_neg hc]
      exact Or.inl ⟨h1, h2⟩
    · by_cases hc : s.currentImageIndex > 0
      · rw [if_pos hc]
        refine Or.inr ⟨h1, ?_, ?_⟩
        · show 0 ≤ s.currentImageIndex - 1
          omega
        · show s.currentImageIndex - 1 < (s.imageHistory.length : Int)
          omega
      · rw [if_neg hc]
        exact Or.inr ⟨h1, h2, h3⟩
  · unfold handleImageUpdate
    refine Or.inr ⟨by simp, ?_, ?_⟩ <;> simp
  · unfold handleEnhance
    cases h : s.imageToProcess with
    | none => simpa [h] using hinv
    | some pre => simp [h, histInvariant]
  · unfold handleEnhance
    cases h : s.imageToProcess with
    | none => simpa [h] using hinv
    | some pre =>
        simp only [h]
        rcases hinv with ⟨h1, h2⟩ | ⟨h1, h2, h3⟩
        · exact Or.inl ⟨h1, h2⟩
        · exact Or.inr ⟨h1, h2, h3⟩
  · unfold handleUndo
    by_cases hc : s.currentImageIndex > 0 <;> simp [hc]

/-- Witness for C4 (amended), at the concrete two-entry `Done` session. -/
theorem c4_history_ops_preserve_invariant_witness :
    histInvariant doneSession ∧
    (histInvariant (resetState doneSession) ∧
      histInvariant (handleUndo doneSession) ∧
      histInvariant (handleImageUpdate doneSession imgC) ∧
      histInvariant (handleEnhance doneSession ["s"] (.ok imgC)) ∧
      histInvariant (handleEnhance doneSession ["s"] (.err "boom")) ∧
      (handleUndo doneSession).imageHistory = doneSession.imageHistory ∧
      (resetState doneSession).imageHistory = []) :=
  ⟨by decide,
    c4_history_ops_preserve_invariant doneSession imgC imgC ["s"] "boom" (by decide)⟩

/-- **C5 (counterexample).** Invoking the enhance action while the session is
in `Analyzing` is not a no-op: `handleEnhance` is gated only on the
presence of a working image, which every reachable `Analyzing` state has,
so the call immediately moves the session to `Enhancing` and proceeds to
the remote call. -/
theorem c5_counterexample_enhance_in_analyzing :
    analyzingSession.appState = .analyzing ∧
    analyzingSession.imageToProcess = some imgA ∧
    handleEnhanceStart analyzingSession ≠ analyzingSession ∧
    (handleEnhanceStart analyzingSession).appState = .enhancing := by
  decide

/-- **C5 (amended).** `handleEnhance` is gated only on the presence of a
working image, not on the session state: with no working image it returns
with the session unchanged, and with a working image present — in
particular in the `Analyzing` state — it immediately sets the state to
`Enhancing` (clearing the error) and fires the remote call.  The
state-gating the spec describes lives in the view layer: the enhance
control is only rendered in `AwaitingConfirmation`. -/
theorem c5_enhance_gated_only_on_working_image (s : Session) :
    (s.imageToProcess = none → handleEnhanceStart s = s) ∧
    (∀ img, s.imageToProcess = some img →
      (handleEnhanceStart s).appState = .enhancing ∧
      (handleEnhanceStart s).error = none ∧
      (s.appState = .analyzing → handleEnhanceStart s ≠ s)) := by
  constructor
  · intro h
    simp [handleEnhanceStart, h]
  · intro img h
    refine ⟨by simp [handleEnhanceStart, h], by simp [handleEnhanceStart, h], ?_⟩
    intro hana heq
    have : (handleEnhanceStart s).appState = s.appState := by rw [heq]
    simp [handleEnhanceStart, h, hana] at this

/-- Witness for C5 (amended), at the concrete `Analyzing` session. -/
theorem c5_enhance_gated_only_on_working_image_witness :
    analyzingSession.imageToProcess = some imgA ∧
    ((handleEnhanceStart analyzingSession).appState = .enhancing ∧
      (handleEnhanceStart analyzingSession).error = none ∧
      (analyzingSession.appState = .analyzing →
        handleEnhanceStart analyzingSession ≠ analyzingSession)) :=
  ⟨by decide,
    (c5_enhance_gated_only_on_working_image analyzingSession).2 imgA (by decide)⟩

/-- **C6 (counterexample).** With the current image a PNG and the chosen
download format WEBP, the saved file is named with a `.webp` extension but
its content is the image's unmodified PNG data URL: the saved bytes'
encoding does not match the chosen extension, because no canvas
re-encoding happens. -/
theorem c6_counterexample_extension_without_reencode :
    imgA.mimeType = "image/png" ∧
    (handleDownload imgA "image/webp" "photo").1 = "photo-enhanced.webp" ∧
    (handleDownload imgA "image/webp" "photo").2 = imgA.url ∧
    mimeOfDataUrl (handleDownload imgA "image/webp" "photo").2 = "image/png" ∧
    mimeOfDataUrl (handleDownload imgA "image/webp" "photo").2 ≠ "image/webp" := by
  refine ⟨rfl, rfl, rfl, rfl, ?_⟩
  decide

/-- **C6 (amended).** For every chosen download format `f` among JPEG, PNG
and WEBP, the download produces a file named from the base name plus
`-enhanced.` plus the subtype of `f`, but its content is the current
image's existing URL taken verbatim — no canvas re-encoding — so when that
URL is the image's own data URL the saved bytes keep the image's own media
type, whatever format was chosen. -/
theorem c6_download_names_by_format_keeps_bytes (img : ImageFile)
    (fmt name : String)
    (hfmt : fmt = "image/jpeg" ∨ fmt = "image/png" ∨ fmt = "image/webp")
    (hmime : img.mimeType = "image/jpeg" ∨ img.mimeType = "image/png" ∨
      img.mimeType = "image/webp")
    (hurl : img.url = dataUrl img.mimeType img.base64) :
    (handleDownload img fmt name).1 =
      name ++ "-enhanced." ++ (⟨fmt.data.drop 6⟩ : String) ∧
    (handleDownload img fmt name).2 = img.url ∧
    mimeOfDataUrl (handleDownload img fmt name).2 = img.mimeType := by
  refine ⟨?_, rfl, ?_⟩
  · rcases hfmt with h | h | h <;> subst h <;> rfl
  · show mimeOfDataUrl img.url = img.mimeType
    rcases hmime with h | h | h <;> rw [hurl, h] <;> rfl

/-- Witness for C6 (amended), at the concrete PNG image with WEBP chosen. -/
theorem c6_download_names_by_format_keeps_bytes_witness :
    imgA.url = dataUrl imgA.mimeType imgA.base64 ∧
    ((handleDownload imgA "image/webp" "photo").1 =
        "photo" ++ "-enhanced." ++ (⟨("image/webp").data.drop 6⟩ : String) ∧
      (handleDownload imgA "image/webp" "photo").2 = imgA.url ∧
      mimeOfDataUrl (handleDownload imgA "image/webp" "photo").2 = imgA.mimeType) :=
  ⟨rfl, c6_download_names_by_format_keeps_bytes imgA "image/webp" "photo"
    (Or.inr (Or.inr rfl)) (Or.inr (Or.inl rfl)) rfl⟩

/-- For a pixel-unit crop — what `ReactCrop.onChange` delivers after any user
adjustment — `handleConfirmCrop` does satisfy the crop-scaling property:
the extracted dimensions are the on-screen selection's dimensions times
the native-to-display ratios, and the media type is the source's. -/
theorem handleConfirmCrop_px_correct (nw nh w h : ℚ) (c : Crop) (mime : String)
    (hu : c.unit = .px) :
    (handleConfirmCrop nw nh w h c mime).width =
      selectionDisplayWidth c w * (nw / w) ∧
    (handleConfirmCrop nw nh w h c mime).height =
      selectionDisplayHeight c h * (nh / h) ∧
    (handleConfirmCrop nw nh w h c mime).mimeType = mime := by
  cases c
  cases hu
  exact ⟨rfl, rfl, rfl⟩

/-- **C7 (code bug, failing input).** For an image with natural size
1000×1000 displayed at 500×500, the initial centered default selection is
the percent-unit crop `x=5, y=5, width=90, height=90` (90% of the
displayed image, i.e. 450×450 on screen).  `handleConfirmCrop`
nevertheless multiplies those percent values by the pixel scale factors as
if they were display pixels, extracting a 180×180 region at (10,10) of
the source — while the claimed (and intended) extraction is the on-screen
selection scaled by the native-to-display ratio, a 900×900 region. -/
theorem c7_initial_crop_unit_mismatch :
    onImageLoad 500 500 = ⟨.pct, 5, 5, 90, 90⟩ ∧
    handleConfirmCrop 1000 1000 500 500 (onImageLoad 500 500) "image/png" =
      ⟨10, 10, 180, 180, "image/png"⟩ ∧
    selectionDisplayWidth (onImageLoad 500 500) 500 * (1000 / 500) = 900 ∧
    selectionDisplayHeight (onImageLoad 500 500) 500 * (1000 / 500) = 900 ∧
    (180 : ℚ) ≠ 900 := by
  have h1 : onImageLoad 500 500 = ⟨.pct, 5, 5, 90, 90⟩ := by
    norm_num [onImageLoad, centerCrop, makeAspectCrop, convertToPixelCrop,
      convertToPercentCrop]
  refine ⟨h1, ?_, ?_, ?_, by norm_num⟩ <;>
    rw [h1] <;>
    norm_num [handleConfirmCrop, selectionDisplayWidth, selectionDisplayHeight]

/-- **C8 (counterexample).** Starting a drag by touch does not disable an
active zoom: after a `mouseenter` (which arms the hover zoom) followed by
a `touchstart`, the comparator is dragging with the zoom transform still
applied — `isDragging` and `isZoomed` are both true in a reachable
state. -/
theorem c8_counterexample_touch_drag_keeps_zoom :
    (compRun 0 0 100 100 initComparator [.mouseEnter, .touchStart]).isDragging
      = true ∧
    (compRun 0 0 100 100 initComparator [.mouseEnter, .touchStart]).isZoomed
      = true := by
  decide

/-- Any single comparator event other than `touchstart` preserves the
invariant that dragging excludes zoom. -/
theorem compStep_preserves_dragNoZoom (l t w h : ℚ) (s : ComparatorState)
    (e : CompEvent) (he : e ≠ CompEvent.touchStart)
    (hs : s.isDragging = true → s.isZoomed = false) :
    (compStep l t w h s e).isDragging = true →
      (compStep l t w h s e).isZoomed = false := by
  cases e <;>
    first
      | exact absurd rfl he
      | (intro _; rfl)
      | (simp only [compStep, handleSliderMove]
         split_ifs <;> simp_all)

/-- Running the comparator over any touchstart-free event sequence preserves
the invariant that dragging excludes zoom. -/
theorem compRun_preserves_dragNoZoom (l t w h : ℚ) (evs : List CompEvent)
    (hnt : ∀ e ∈ evs, e ≠ CompEvent.touchStart) (s : ComparatorState)
    (hs : s.isDragging = true → s.isZoomed = false) :
    (compRun l t w h s evs).isDragging = true →
      (compRun l t w h s evs).isZoomed = false := by
  induction evs generalizing s with
  | nil => exact hs
  | cons e es ih =>
      simp only [compRun, List.foldl_cons]
      exact ih (fun e' he' => hnt e' (List.mem_cons_of_mem _ he')) _
        (compStep_preserves_dragNoZoom l t w h s e (hnt e (List.mem_cons_self _ _)) hs)

/-- **C8 (amended).** Starting a drag by mouse always disables any active
zoom (`mousedown` unconditionally clears `isZoomed` while setting
`isDragging`), and in every comparator state reachable from the initial
state without a `touchstart`, `isDragging = true` implies
`isZoomed = false`; a touch-started drag, by contrast, leaves an armed
zoom in place. -/
theorem c8_mouse_drag_disables_zoom (rectLeft rectTop rectWidth rectHeight : ℚ)
    (evs : List CompEvent)
    (hnt : ∀ e ∈ evs, e ≠ CompEvent.touchStart) :
    (∀ s : ComparatorState,
      (compStep rectLeft rectTop rectWidth rectHeight s .mouseDown).isDragging
          = true ∧
      (compStep rectLeft rectTop rectWidth rectHeight s .mouseDown).isZoomed
          = false) ∧
    ((compRun rectLeft rectTop rectWidth rectHeight initComparator evs).isDragging
        = true →
      (compRun rectLeft rectTop rectWidth rectHeight initComparator evs).isZoomed
        = false) := by
  refine ⟨fun s => ⟨rfl, rfl⟩, ?_⟩
  exact compRun_preserves_dragNoZoom rectLeft rectTop rectWidth rectHeight evs hnt
    initComparator (by intro h; exact absurd h (by simp [initComparator]))

/-- Witness for C8 (amended), at the concrete sequence
`[mouseenter, mousedown]`. -/
theorem c8_mouse_drag_disables_zoom_witness :
    (∀ e ∈ ([.mouseEnter, .mouseDown] : List CompEvent),
      e ≠ CompEvent.touchStart) ∧
    ((compStep 0 0 100 100 initComparator .mouseDown).isDragging = true ∧
      (compStep 0 0 100 100 initComparator .mouseDown).isZoomed = false) ∧
    ((compRun 0 0 100 100 initComparator [.mouseEnter, .mouseDown]).isDragging
        = true →
      (compRun 0 0 100 100 initComparator [.mouseEnter, .mouseDown]).isZoomed
        = false) := by
  have h := c8_mouse_drag_disables_zoom 0 0 100 100 [.mouseEnter, .mouseDown]
    (by decide)
  exact ⟨by decide, h.1 initComparator, h.2⟩

/-- Appending one chunk to a message list ending in a known last message
extends that last message's text. -/
theorem appendChunk_concat (l : List ChatMessage) (r : Role) (t c : String) :
    appendChunk (l ++ [⟨r, t⟩]) c = l ++ [⟨r, t ++ c⟩] := by
  unfold appendChunk
  rw [List.getLast?_concat, List.dropLast_concat]

/-- `String.join` of a cons. -/
theorem join_cons_eq (c : String) (cs : List String) :
    String.join (c :: cs) = c ++ String.join cs := by
  apply String.ext
  simp

/-- Folding the stream loop over a message list ending in a known last
message concatenates all chunks, in order, onto that message's text. -/
theorem foldl_appendChunk (cs : List String) (l : List ChatMessage) (r : Role)
    (t : String) :
    cs.foldl appendChunk (l ++ [⟨r, t⟩]) = l ++ [⟨r, t ++ String.join cs⟩] := by
  induction cs generalizing t with
  | nil => simp [String.join]
  | cons c cs ih =>
      rw [List.foldl_cons, appendChunk_concat, ih, join_cons_eq,
        ← String.append_assoc]

/-- **C9.** For every sequence of incoming chat stream chunks, the stream
loop appends each chunk to the single in-progress model message in arrival
order — after processing the whole sequence, the model message's text is
the ordered concatenation of all chunks — and the failure path
(`slice(0, -1)`) discards exactly the in-progress model message, leaving
the list as it was before the model's reply began (the user message
included). -/
theorem c9_stream_appends_in_order_discards_on_failure
    (msgs : List ChatMessage) (userMessage : String) (chunks : List String) :
    runStream msgs userMessage chunks =
      msgs ++ [⟨.user, userMessage⟩, ⟨.model, String.join chunks⟩] ∧
    discardInProgress (runStream msgs userMessage chunks) =
      msgs ++ [⟨.user, userMessage⟩] := by
  have hrun : runStream msgs userMessage chunks =
      (msgs ++ [⟨.user, userMessage⟩]) ++ [⟨.model, String.join chunks⟩] := by
    unfold runStream pushUserAndPlaceholder
    rw [show msgs ++ [(⟨.user, userMessage⟩ : ChatMessage), ⟨.model, ""⟩] =
        (msgs ++ [⟨.user, userMessage⟩]) ++ [(⟨.model, ""⟩ : ChatMessage)] by
      simp]
    rw [foldl_appendChunk, String.empty_append]
  constructor
  · rw [hrun]
    simp
  · rw [hrun]
    unfold discardInProgress
    rw [List.dropLast_concat]

/-- **C10.** `applyBackgroundBlur` at blur level 0 is the identity on its
image argument and issues no remote request, and the result panel's blur
handler returns without any state change (and without proceeding to the
remote call) when the blur slider is at 0. -/
theorem c10_blur_level_zero_is_identity (img : ImageFile)
    (p : ResultPanelState) (hp : p.backgroundBlurLevel = 0) :
    applyBackgroundBlur img 0 = .noRequest img ∧
    handleApplyBackgroundBlurStart p = (p, false) := by
  refine ⟨rfl, ?_⟩
  simp [handleApplyBackgroundBlurStart, hp]

/-- Witness for C10, at a concrete panel state with the slider at 0. -/
theorem c10_blur_level_zero_is_identity_witness :
    (⟨0, false, none⟩ : ResultPanelState).backgroundBlurLevel = 0 ∧
    (applyBackgroundBlur imgA 0 = .noRequest imgA ∧
      handleApplyBackgroundBlurStart ⟨0, false, none⟩ = (⟨0, false, none⟩, false)) :=
  ⟨rfl, c10_blur_level_zero_is_identity imgA ⟨0, false, none⟩ rfl⟩

end Artifyy
